import Mathlib

/-!
Shallow embedding of the StarterDevices firmware (controller/device LED+audio
synchronization over nRF24/RFM95 radios).  All `unsigned long` (32-bit) time
arithmetic is modelled on `Nat` with explicit reduction modulo `2^32`; the
firmware's `(long)(a - b)` signed-difference comparisons are modelled by
`toSigned`.  Each definition is translated from a specific function of the
source tree, named in its doc comment.
-/

namespace StarterDevices

/-- `2^32`, the modulus of AVR `unsigned long` arithmetic. -/
def M32 : Nat := 4294967296

/-- `2^31`, the signed/unsigned boundary of a 32-bit `long`. -/
def HALF32 : Nat := 2147483648

/-- Addition of two 32-bit unsigned values (`a + b` on `unsigned long`). -/
def add32 (a b : Nat) : Nat := (a + b) % M32

/-- Subtraction of two 32-bit unsigned values (`a - b` on `unsigned long`). -/
def sub32 (a b : Nat) : Nat := (a + (M32 - b % M32)) % M32

/-- Reinterpretation of a 32-bit unsigned value as a signed `long`, as done by
the firmware's `(long)(a - b)` comparisons. -/
def toSigned (x : Nat) : Int :=
  if x % M32 < HALF32 then ((x % M32 : Nat) : Int) else ((x % M32 : Nat) : Int) - (M32 : Int)

/-- The strict comparison `(long)(a - b) > 0` used as the sort key in
`sortActionsByTime` (Receiver.ino line 42). -/
def sgt32 (a b : Nat) : Bool := decide (0 < toSigned (sub32 a b))

/-- Wraparound-safe due check `(long)(now - t) >= 0` of `runScheduledSteps`
(Receiver.ino line 65, receiver_rfm95.ino line 77). -/
def dueWrapSafe (now t : Nat) : Bool := decide (0 ≤ toSigned (sub32 now t))

/-- Naive unsigned due check `now >= eventMicros[currentStep]` of
`runScheduledSteps` in the legacy device sketch (src/unnamed/part_006,
second sketch, line 358). -/
def dueNaive (now t : Nat) : Bool := decide (t ≤ now)

/-- Wraparound-safe wait guard `(long)(micros() - earliestGreenTime) < 0` of
the earliest-green busy wait (transmitter/transmitter.ino line 279,
src/unnamed/part_002 line 247). -/
def greenWaitWrapSafe (now target : Nat) : Bool := decide (toSigned (sub32 now target) < 0)

/-- Naive unsigned wait guard `micros() < earliestGreenTime` of the
earliest-green busy wait in src/unnamed/part_003 `handleMultiStart`
(line 202). -/
def greenWaitNaive (now target : Nat) : Bool := decide (now < target)

/-! ### Packet layouts (src/Packets.h) -/

/-- Message tag `MSG_START_V1 = 0xA1` (Packets.h). -/
def MSG_START_V1 : Nat := 0xA1

/-- Message tag `MSG_DISCOVER_V1 = 0xA2` (Packets.h). -/
def MSG_DISCOVER_V1 : Nat := 0xA2

/-- Message tag `MSG_BROADCAST_V1 = 0xA3` (Packets.h). -/
def MSG_BROADCAST_V1 : Nat := 0xA3

/-- Message tag `MSG_READY_V1 = 0xB1` (Packets.h). -/
def MSG_READY_V1 : Nat := 0xB1

/-- `struct StartPacketV1` (Packets.h): fields in declaration order; `t_ds`
holds the four step offsets in deciseconds. -/
structure StartPacketV1 where
  seq : Nat
  targetId : Nat
  currentClock : Nat
  masterStart : Nat
  volume : Nat
  steps : Nat
  t_ds : List Nat
deriving Repr, DecidableEq

/-- Byte size of `StartPacketV1`: `type:u8, seq:u16, targetId:u8,
currentClock:u32, masterStart:u32, volume:u8, steps:u8, t_ds:u16[4]`
(packed, Packets.h lines 19–28). -/
def startPacketSize : Nat := 1 + 2 + 1 + 4 + 4 + 1 + 1 + 4 * 2

/-- Byte size of `DiscoverPacketV1`: `type:u8, seq:u16, targetId:u8`
(Packets.h lines 30–34). -/
def discoverPacketSize : Nat := 1 + 2 + 1

/-- Byte size of `BroadcastPacketV1`: `type:u8, seq:u16, command:u8`
(Packets.h lines 36–41). -/
def broadcastPacketSize : Nat := 1 + 2 + 1

/-- `struct ReadyAckV1` (Packets.h lines 44–47). -/
structure ReadyAckV1 where
  type : Nat
  seq : Nat
deriving Repr, DecidableEq

/-! ### Reliable delivery (transmitter_rfm95.ino `sendReliable`, lines 111–146) -/

/-- `RETRY_COUNT = 3` (transmitter_rfm95.ino line 25). -/
def RETRY_COUNT : Nat := 3

/-- The acknowledgment match test of `sendReliable` (transmitter_rfm95.ino
line 122): `ack.type == MSG_READY_V1 && ack.seq == ((StartPacketV1*)data)->seq`. -/
def ackMatches (seq : Nat) (a : ReadyAckV1) : Bool :=
  a.type == MSG_READY_V1 && a.seq == seq

/-- Whether some acknowledgment received inside one attempt's `ACK_TIMEOUT_MS`
window matches (the inner `while (millis() - start < ACK_TIMEOUT_MS)` loop of
`sendReliable`). -/
def attemptAcked (seq : Nat) (w : List ReadyAckV1) : Bool := w.any (ackMatches seq)

/-- The `for (attempt = 1; attempt <= RETRY_COUNT; ++attempt)` loop of
`sendReliable`: `env i` is the list of acknowledgments the radio delivers
during attempt `i`'s timeout window.  Returns (acked?, number of
transmissions performed). -/
def sendReliableLoop (seq : Nat) (env : Nat → List ReadyAckV1) (attempt : Nat) :
    Nat → Bool × Nat
  | 0 => (false, 0)
  | remaining + 1 =>
    if attemptAcked seq (env attempt) then (true, 1)
    else
      let r := sendReliableLoop seq env (attempt + 1) remaining
      (r.1, r.2 + 1)

/-- `sendReliable` (transmitter_rfm95.ino lines 111–146): transmit, wait for a
matching READY-ACK, retry up to `RETRY_COUNT` times, return success flag and
how many transmissions were made. -/
def sendReliable (seq : Nat) (env : Nat → List ReadyAckV1) : Bool × Nat :=
  sendReliableLoop seq env 1 RETRY_COUNT

/-! ### Action scheduler (Receiver.ino / receiver_rfm95.ino) -/

/-- `struct Action { unsigned long t; uint8_t type; uint8_t arg; }`
(Receiver.ino line 30). -/
structure Action where
  t : Nat
  type : Nat
  arg : Nat
deriving Repr, DecidableEq

/-- `ACT_PLAY = 1` (Receiver.ino line 31). -/
def ACT_PLAY : Nat := 1

/-- `ACT_LED_RED = 2` (Receiver.ino line 31). -/
def ACT_LED_RED : Nat := 2

/-- `ACT_LED_ORANGE = 3` (Receiver.ino line 31). -/
def ACT_LED_ORANGE : Nat := 3

/-- `ACT_LED_GREEN = 4` (Receiver.ino line 31). -/
def ACT_LED_GREEN : Nat := 4

/-- `ACT_ALL_OFF = 5` (Receiver.ino line 31). -/
def ACT_ALL_OFF : Nat := 5

/-- `MAX_ACTIONS = 12` (Receiver.ino line 32). -/
def MAX_ACTIONS : Nat := 12

/-- `TRACK_FOR_STEP = { TRACK_RED, TRACK_ORANGE, TRACK_GREEN, TRACK_START }`
(Receiver.ino line 23). -/
def TRACK_FOR_STEP : List Nat := [1, 2, 3, 4]

/-- The audio lead in microseconds: `LEAD_T_MS[i] * 1000` with
`LEAD_T_MS = {1000, 1000, 1000}` (Receiver.ino lines 24, 92). -/
def leadUs : Nat := 1000 * 1000

/-- `addAction` (Receiver.ino lines 37–39): append when below capacity,
silently drop otherwise. -/
def addAction (acc : List Action) (t ty arg : Nat) : List Action :=
  if acc.length < MAX_ACTIONS then acc ++ [⟨t, ty, arg⟩] else acc

/-- `ds_to_us` (Receiver.ino line 84): `(unsigned long)ds * 100000UL`,
deciseconds to microseconds on 32-bit arithmetic. -/
def ds_to_us (ds : Nat) : Nat := ds * 100000 % M32

/-- The LED trigger time for one step: `base + ds_to_us(pkt.t_ds[i])`
(Receiver.ino line 88). -/
def ledTimeB (base ds : Nat) : Nat := add32 base (ds_to_us ds)

/-- The unclamped audio trigger time `ledT[i] - LEAD_T_MS[i]*1000UL`
(Receiver.ino line 92). -/
def playTimeRawB (base ds : Nat) : Nat := sub32 (ledTimeB base ds) leadUs

/-- The clamped audio trigger time: `if ((long)(playT - base) < 0) playT = base`
(Receiver.ino line 93). -/
def playTimeB (base ds : Nat) : Nat :=
  if toSigned (sub32 (playTimeRawB base ds) base) < 0 then base else playTimeRawB base ds

/-- LED action type for step `i`:
`(i==0)?ACT_LED_RED:(i==1)?ACT_LED_ORANGE:ACT_LED_GREEN` (Receiver.ino line 95). -/
def ledActType (i : Nat) : Nat :=
  if i = 0 then ACT_LED_RED else if i = 1 then ACT_LED_ORANGE else ACT_LED_GREEN

/-- The schedule-building loop `for (i=0; i<pkt.steps && i<3; i++)` of
`parseStartBinary` (Receiver.ino lines 91–96): after `n` iterations the action
array holds, for each processed step, a clamped `ACT_PLAY` then its LED action. -/
def buildCore (base : Nat) (t_ds : List Nat) : Nat → List Action
  | 0 => []
  | n + 1 =>
    addAction
      (addAction (buildCore base t_ds n)
        (playTimeB base (t_ds.getD n 0)) ACT_PLAY (TRACK_FOR_STEP.getD n 0))
      (ledTimeB base (t_ds.getD n 0)) (ledActType n) 0

/-- The full emitted action list of `parseStartBinary` before sorting
(Receiver.ino lines 86–101): up to three play/LED pairs, plus one
`ACT_ALL_OFF` at `base + ds_to_us(pkt.t_ds[3])` when `pkt.steps >= 4`. -/
def buildActionsB (base : Nat) (steps : Nat) (t_ds : List Nat) : List Action :=
  let core := buildCore base t_ds (min steps 3)
  if 4 ≤ steps then addAction core (add32 base (ds_to_us (t_ds.getD 3 0))) ACT_ALL_OFF 0
  else core

/-- The schedule base of Receiver.ino's `parseStartBinary` (line 78):
`base = pkt.masterStart + timeOffset`. -/
def scheduleBase (timeOffset : Nat) (pkt : StartPacketV1) : Nat :=
  add32 pkt.masterStart timeOffset

/-- Receiver.ino's emitted (unsorted) action list for a START packet. -/
def buildStartActions (timeOffset : Nat) (pkt : StartPacketV1) : List Action :=
  buildActionsB (scheduleBase timeOffset pkt) pkt.steps pkt.t_ds

/-- Step LED time of Receiver.ino's `parseStartBinary`. -/
def ledTime (timeOffset : Nat) (pkt : StartPacketV1) (i : Nat) : Nat :=
  ledTimeB (scheduleBase timeOffset pkt) (pkt.t_ds.getD i 0)

/-- Step (clamped) audio time of Receiver.ino's `parseStartBinary`. -/
def playTime (timeOffset : Nat) (pkt : StartPacketV1) (i : Nat) : Nat :=
  playTimeB (scheduleBase timeOffset pkt) (pkt.t_ds.getD i 0)

/-- One scan step of the insertion sort's inner
`while (j>=0 && (long)(actions[j].t - key.t) > 0)` loop (Receiver.ino
lines 40–45): splits a list into the part left untouched and the maximal
all-greater suffix that gets shifted right past the key. -/
def splitGtSuffix (key : Action) : List Action → List Action × List Action
  | [] => ([], [])
  | a :: rest =>
    match splitGtSuffix key rest with
    | ([], s) => if sgt32 a.t key.t then ([], a :: s) else ([a], s)
    | (b :: pre, s) => (a :: b :: pre, s)

/-- One outer iteration of `sortActionsByTime`: insert the key after the
rightmost element not greater than it. -/
def insertSorted (key : Action) (l : List Action) : List Action :=
  (splitGtSuffix key l).1 ++ key :: (splitGtSuffix key l).2

/-- `sortActionsByTime` (Receiver.ino lines 40–45): in-place insertion sort
by the signed-difference comparison, processed left to right. -/
def sortActionsByTime (l : List Action) : List Action :=
  l.foldl (fun acc x => insertSorted x acc) []

/-- Device state of Receiver.ino relevant to START processing: dedup
fingerprint (`lastSeq`, `lastMasterStart`), clock offset, the action array
with its cursor, and the schedule volume. -/
structure RecvState where
  lastSeq : Nat
  lastMasterStart : Nat
  timeOffset : Nat
  actions : List Action
  currentStep : Nat
  scheduleVolume : Nat
deriving Repr, DecidableEq

/-- `parseStartBinary` (Receiver.ino lines 73–109).  Returns the new state and
the READY acknowledgment payload (`preloadReadyAck(pkt.seq)`), which is
produced on both the duplicate and the fresh path. -/
def parseStartBinary (s : RecvState) (pkt : StartPacketV1) : RecvState × Option Nat :=
  if pkt.seq == s.lastSeq && pkt.masterStart == s.lastMasterStart then (s, some pkt.seq)
  else
    ({ s with
        actions := sortActionsByTime (buildStartActions s.timeOffset pkt)
        currentStep := 0
        scheduleVolume := pkt.volume
        lastSeq := pkt.seq
        lastMasterStart := pkt.masterStart }, some pkt.seq)

/-- `runScheduledSteps` (Receiver.ino lines 62–66): fire at most one due
action per tick and advance the cursor by one. -/
def runScheduledSteps (s : RecvState) (now : Nat) : RecvState × Option Action :=
  if s.currentStep ≥ s.actions.length ∨ s.actions.length = 0 then (s, none)
  else if dueWrapSafe now (s.actions.getD s.currentStep ⟨0, 0, 0⟩).t then
    ({ s with currentStep := s.currentStep + 1 }, some (s.actions.getD s.currentStep ⟨0, 0, 0⟩))
  else (s, none)

/-! ### receiver_rfm95.ino -/

/-- `DEVICE_ID = 2` (receiver_rfm95.ino line 26). -/
def rfm95DeviceId : Nat := 2

/-- Device state of receiver_rfm95.ino: the scheduler array, cursor and
volume.  Note: this sketch keeps no `lastSeq`/`lastMasterStart` fingerprint. -/
structure Rfm95State where
  actions : List Action
  currentStep : Nat
  scheduleVolume : Nat
deriving Repr, DecidableEq

/-- `handleStart` (receiver_rfm95.ino lines 95–121): ignore packets for other
devices; otherwise acknowledge, then unconditionally rebuild the schedule from
`localStart = micros() + (pkt.masterStart - pkt.currentClock)` and reset the
cursor — with no duplicate check. -/
def rfm95HandleStart (s : Rfm95State) (now : Nat) (pkt : StartPacketV1) :
    Rfm95State × Option Nat :=
  if pkt.targetId ≠ rfm95DeviceId then (s, none)
  else
    let base := add32 now (sub32 pkt.masterStart pkt.currentClock)
    ({ actions := sortActionsByTime (buildActionsB base pkt.steps pkt.t_ds)
       currentStep := 0
       scheduleVolume := pkt.volume }, some pkt.seq)

/-- `runScheduledSteps` (receiver_rfm95.ino lines 74–78). -/
def rfm95RunScheduledSteps (s : Rfm95State) (now : Nat) : Rfm95State × Option Action :=
  if s.currentStep ≥ s.actions.length ∨ s.actions.length = 0 then (s, none)
  else if dueWrapSafe now (s.actions.getD s.currentStep ⟨0, 0, 0⟩).t then
    ({ s with currentStep := s.currentStep + 1 }, some (s.actions.getD s.currentStep ⟨0, 0, 0⟩))
  else (s, none)

/-- Which handler the receiver's `loop()` dispatches a received buffer to
(receiver_rfm95.ino lines 167–199): drop short buffers, then switch on byte 0
and require the exact struct size for that tag. -/
inductive Dispatched where
  | discover
  | start
  | broadcast
  | dropped
deriving Repr, DecidableEq

/-- The length-gated tag dispatch of receiver_rfm95.ino's `loop()`
(lines 172–199), including the `if (len < 3) return` guard (line 172). -/
def rfm95Dispatch (buf : List Nat) : Dispatched :=
  if buf.length < 3 then Dispatched.dropped
  else
    let tag := buf.getD 0 0
    if tag = MSG_DISCOVER_V1 then
      if buf.length = discoverPacketSize then Dispatched.discover else Dispatched.dropped
    else if tag = MSG_START_V1 then
      if buf.length = startPacketSize then Dispatched.start else Dispatched.dropped
    else if tag = MSG_BROADCAST_V1 then
      if buf.length = broadcastPacketSize then Dispatched.broadcast else Dispatched.dropped
    else Dispatched.dropped

/-! ### LED semantics of `executeStep` (Receiver.ino lines 53–61) -/

/-- The three signal LEDs (pins 5, 6, 7). -/
structure LedState where
  red : Bool
  orange : Bool
  green : Bool
deriving Repr, DecidableEq

/-- `allLedsOff()` (Receiver.ino line 47). -/
def allOffLeds : LedState := ⟨false, false, false⟩

/-- The LED effect of `executeStep` (Receiver.ino lines 53–61), which switches
on the action's `type`; `ACT_PLAY` touches no LED, `ACT_LED_ORANGE` also turns
the red LED off, `ACT_LED_GREEN` also turns the orange LED off. -/
def execLed (s : LedState) (ty : Nat) : LedState :=
  if ty = ACT_LED_RED then { s with red := true }
  else if ty = ACT_LED_ORANGE then { s with red := false, orange := true }
  else if ty = ACT_LED_GREEN then { s with orange := false, green := true }
  else if ty = ACT_ALL_OFF then allOffLeds
  else s

/-- Number of signal colors currently lit. -/
def litCount (s : LedState) : Nat :=
  (if s.red then 1 else 0) + (if s.orange then 1 else 0) + (if s.green then 1 else 0)

/-- Whether at most one signal color is lit. -/
def atMostOneLit (s : LedState) : Bool := decide (litCount s ≤ 1)

/-- Executing an action list in order from state `s`, checking that at most
one signal color is lit after every prefix (including the empty one). -/
def allPrefixesAtMostOne : LedState → List Action → Bool
  | s, [] => atMostOneLit s
  | s, a :: rest => atMostOneLit s && allPrefixesAtMostOne (execLed s a.type) rest

/-- Whether an action type turns a signal LED on (`ACT_LED_RED`,
`ACT_LED_ORANGE`, `ACT_LED_GREEN`); `ACT_PLAY` and `ACT_ALL_OFF` never light
an LED in `executeStep`. -/
def isLedOn (ty : Nat) : Bool :=
  ty == ACT_LED_RED || ty == ACT_LED_ORANGE || ty == ACT_LED_GREEN

/-- The subsequence of a schedule consisting of its LED-lighting actions, in
execution order. -/
def ledOnActions (l : List Action) : List Action :=
  l.filter (fun a => isLedOn a.type)

/-- The LED-lighting action types still to come after `p` of them have
executed, when they run in the red, orange, green order of `executeStep`. -/
def phaseLeds : Nat → List Nat
  | 0 => [ACT_LED_RED, ACT_LED_ORANGE, ACT_LED_GREEN]
  | 1 => [ACT_LED_ORANGE, ACT_LED_GREEN]
  | 2 => [ACT_LED_GREEN]
  | _ + 3 => []

/-- The LED state reached after `p` LED-lighting actions of `executeStep`
have run in red, orange, green order (unless an `ACT_ALL_OFF` cleared it). -/
def phaseState : Nat → LedState
  | 0 => allOffLeds
  | 1 => ⟨true, false, false⟩
  | 2 => ⟨false, true, false⟩
  | _ + 3 => ⟨false, false, true⟩

/-! ### Discovery registry (transmitter.ino `performDiscovery`, lines 160–207) -/

/-- `MAX_DEVICES = 99` (transmitter.ino line 9). -/
def MAX_DEVICES : Nat := 99

/-- Processing of one inbound WHO-response token inside the 5-second window of
`performDiscovery` (transmitter.ino lines 185–202): linear scan for the token,
append only if absent and below capacity.  Tokens are modelled as `Nat`
(the source compares fixed-size id strings with `strcmp`). -/
def discoverStep (reg : List Nat) (id : Nat) : List Nat :=
  if reg.contains id then reg
  else if reg.length < MAX_DEVICES then reg ++ [id] else reg

/-- `performDiscovery` (transmitter.ino lines 160–207): the registry is reset
(`deviceCount = 0`, line 182) and then rebuilt from the window's arrivals in
order. -/
def performDiscovery (inbound : List Nat) : List Nat :=
  inbound.foldl discoverStep []

/-! ### Controller START batch handling -/

/-- `startDelaySec = 2` (transmitter_rfm95.ino line 30,
transmitter/transmitter.ino line 9). -/
def startDelaySec : Nat := 2

/-- The per-batch master start of `handleMultiStart` /
`handleMultiStartBinary` (transmitter/transmitter.ino line 197,
src/unnamed/part_002 line 141): `micros() + startDelaySec * 1000000UL`,
computed once before the entry loop. -/
def batchMasterStart (now : Nat) : Nat := add32 now (startDelaySec * 1000000)

/-- The master starts stamped into a batch's packets by
`handleStartCommand` (transmitter_rfm95.ino lines 225–226, 235): the same
formula, but evaluated inside the per-entry loop, once per valid entry;
`clocks` lists the `micros()` reading at each entry. -/
def rfm95MasterStarts (clocks : List Nat) : List Nat :=
  clocks.map (fun c => add32 c (startDelaySec * 1000000))

/-! ### Legacy device sketch (src/unnamed/part_007, second sketch) -/

/-- Step LED time of `parseAndScheduleSequence` (src/unnamed/part_007
line 380): `masterNow + offUs` where `offUs` is the step offset converted to
microseconds. -/
def p7LedTime (masterNow offUs : Nat) : Nat := add32 masterNow offUs

/-- Step audio time of `parseAndScheduleSequence` (src/unnamed/part_007
line 388): `ledT[i] - LEAD_T_MS[i] * 1000UL`, with no clamp against
`masterNow`. -/
def p7PlayTime (masterNow offUs : Nat) : Nat := sub32 (p7LedTime masterNow offUs) leadUs

/-! ### Concrete inputs used by counterexamples and witnesses -/

/-- A valid three-step directive whose first offset (2148.5 s) exceeds the
signed-difference horizon once the audio lead is subtracted. -/
def cexPkt : StartPacketV1 :=
  { seq := 1, targetId := 3, currentClock := 0, masterStart := 0
    volume := 20, steps := 3, t_ds := [21485, 0, 0, 0] }

/-- A valid three-step directive whose offsets are not in increasing order
(red at 3 s, orange at 2 s, green at 1 s). -/
def pkt7 : StartPacketV1 :=
  { seq := 9, targetId := 3, currentClock := 0, masterStart := 0
    volume := 20, steps := 3, t_ds := [30, 20, 10, 0] }

/-- A well-formed increasing directive used by witnesses. -/
def wpkt : StartPacketV1 :=
  { seq := 5, targetId := 2, currentClock := 0, masterStart := 2000000
    volume := 20, steps := 4, t_ds := [10, 20, 30, 40] }

/-- The START packet used to exhibit the missing duplicate check of
receiver_rfm95.ino's `handleStart`. -/
def pkt4 : StartPacketV1 :=
  { seq := 7, targetId := 2, currentClock := 0, masterStart := 2000000
    volume := 20, steps := 3, t_ds := [10, 20, 30, 0] }

/-! ## Theorems -/

/-- **C5** (refuted, code bug): the legacy device sketch's due check
(src/unnamed/part_006, second sketch, line 358) and the earliest-green wait of
src/unnamed/part_003 `handleMultiStart` (line 202) use naive unsigned
comparison.  At two clock readings straddling the 32-bit rollover
(`now = 2^32 - 1000`, target `1000`), the wraparound-safe signed-difference
comparison classifies the target as later (not yet due, still waiting), while
the naive comparisons fire the action early and end the wait early. -/
theorem wraparound_comparison_bug :
    dueNaive 4294966296 1000 = true ∧ dueWrapSafe 4294966296 1000 = false ∧
    greenWaitNaive 4294966296 1000 = false ∧ greenWaitWrapSafe 4294966296 1000 = true := by
  decide

/-- **C6** (refuted, code bug): src/unnamed/part_007's
`parseAndScheduleSequence` (lines 387–391) subtracts the audio lead with no
clamp: for a step at offset 0 with `masterNow = 5000000`, the PlayAudio action
is scheduled at 4000000, strictly before the resolved local target start time
under the signed-difference order.  Receiver.ino's `parseStartBinary`
(line 93) clamps the same step to exactly the base time. -/
theorem missing_lead_clamp_bug :
    toSigned (sub32 (p7PlayTime 5000000 0) 5000000) < 0 ∧
    p7PlayTime 5000000 0 = 4000000 ∧
    playTimeB 5000000 0 = 5000000 := by
  decide

/-- **C8** (refuted, code bug): transmitter_rfm95.ino's `handleStartCommand`
evaluates `masterStart = micros() + startDelaySec * 1000000` inside the
per-entry loop (lines 225–226), so a batch of two entries processed 1000 µs
apart stamps different `masterStart` values into its packets, unlike the
once-per-batch value computed by `handleMultiStart` /
`handleMultiStartBinary`. -/
theorem per_entry_master_start_bug :
    rfm95MasterStarts [0, 1000] = [2000000, 2001000] ∧
    batchMasterStart 0 = 2000000 ∧
    rfm95MasterStarts [0, 1000] ≠ [batchMasterStart 0, batchMasterStart 0] := by
  decide

/-- **C4** (refuted, code bug): receiver_rfm95.ino's `handleStart`
(lines 95–121) has no (seq, masterStart) duplicate check: after the device has
processed `pkt4` and its scheduler cursor has advanced to 2, re-processing the
identical packet acknowledges again but rebuilds the list and resets the
cursor to 0, restarting the in-progress schedule.  By contrast, Receiver.ino's
`parseStartBinary` leaves the cursor and action list of a duplicate untouched
while still producing the acknowledgment, as the claim states. -/
theorem duplicate_start_resets_cursor_bug :
    ((rfm95RunScheduledSteps
        ((rfm95RunScheduledSteps
            ((rfm95HandleStart ⟨[], 0, 20⟩ 500 pkt4).1) 4000000).1) 4100000).1.currentStep = 2) ∧
    ((rfm95HandleStart
        ((rfm95RunScheduledSteps
            ((rfm95RunScheduledSteps
                ((rfm95HandleStart ⟨[], 0, 20⟩ 500 pkt4).1) 4000000).1) 4100000).1)
        6000000 pkt4).2 = some 7) ∧
    ((rfm95HandleStart
        ((rfm95RunScheduledSteps
            ((rfm95RunScheduledSteps
                ((rfm95HandleStart ⟨[], 0, 20⟩ 500 pkt4).1) 4000000).1) 4100000).1)
        6000000 pkt4).1.currentStep = 0) ∧
    ((parseStartBinary ⟨7, 2000000, 0, [⟨1, ACT_PLAY, 1⟩], 2, 20⟩ pkt4).1.currentStep = 2) ∧
    ((parseStartBinary ⟨7, 2000000, 0, [⟨1, ACT_PLAY, 1⟩], 2, 20⟩ pkt4).1.actions
      = [⟨1, ACT_PLAY, 1⟩]) ∧
    ((parseStartBinary ⟨7, 2000000, 0, [⟨1, ACT_PLAY, 1⟩], 2, 20⟩ pkt4).2 = some 7) := by
  decide

/-- **C3** (counterexample): for the valid three-step directive `cexPkt`
(first offset 2148.5 s, within the wire range), the clamped PlayAudio time of
step 0 compares strictly *after* its paired SetLed time under the
signed-difference order, refuting the claim as stated. -/
theorem schedule_pairing_cex :
    cexPkt.steps = 3 ∧ (∀ d ∈ cexPkt.t_ds, d < 65536) ∧
    0 < toSigned (sub32 (playTime 0 cexPkt 0) (ledTime 0 cexPkt 0)) := by
  decide

/-- **C7** (counterexample): for the valid directive `pkt7` whose offsets are
not increasing (red 3 s, orange 2 s, green 1 s), executing the built and
time-sorted action list from the all-off state reaches a state with two
signal colors lit, refuting the claim as stated. -/
theorem led_invariant_cex :
    pkt7.steps = 3 ∧ (∀ d ∈ pkt7.t_ds, d < 65536) ∧
    allPrefixesAtMostOne allOffLeds (sortActionsByTime (buildStartActions 0 pkt7)) = false := by
  decide

/-- **C2** (confirmed): receiver_rfm95.ino's `loop()` dispatches a received
buffer to a handler exactly when the buffer's length equals the exact struct
size selected by the tag in byte 0 — 22 bytes for START, 4 for DISCOVER, 4 for
BROADCAST — and drops every other buffer without reaching any handler. -/
theorem decode_length_gate (buf : List Nat) :
    (rfm95Dispatch buf = Dispatched.start ↔
      buf.getD 0 0 = MSG_START_V1 ∧ buf.length = startPacketSize) ∧
    (rfm95Dispatch buf = Dispatched.discover ↔
      buf.getD 0 0 = MSG_DISCOVER_V1 ∧ buf.length = discoverPacketSize) ∧
    (rfm95Dispatch buf = Dispatched.broadcast ↔
      buf.getD 0 0 = MSG_BROADCAST_V1 ∧ buf.length = broadcastPacketSize) ∧
    startPacketSize = 22 ∧ discoverPacketSize = 4 ∧ broadcastPacketSize = 4 := by
  refine ⟨?_, ?_, ?_, rfl, rfl, rfl⟩ <;>
    · unfold rfm95Dispatch
      split_ifs with h1 h2 h3 h4 h5 h6 h7 <;>
        simp_all [MSG_START_V1, MSG_DISCOVER_V1, MSG_BROADCAST_V1,
          startPacketSize, discoverPacketSize, broadcastPacketSize] <;>
        first
          | omega
          | (intro hx; omega)
          | (split_ifs <;> simp_all)

/-- **C1** (confirmed): `sendReliable` transmits the identical packet at most
`RETRY_COUNT` times; it returns acked exactly when some attempt's timeout
window delivers a READY-ACK matching the packet's `seq`, in which case it
stops at the first such attempt (no further transmissions, every earlier
window unmatched); and when no window matches it returns failed after exactly
`RETRY_COUNT` transmissions. -/
theorem sendReliable_contract (seq : Nat) (env : Nat → List ReadyAckV1) :
    (sendReliable seq env).2 ≤ RETRY_COUNT ∧
    ((sendReliable seq env).1 = true ↔
      ∃ i, 1 ≤ i ∧ i ≤ RETRY_COUNT ∧ attemptAcked seq (env i) = true) ∧
    ((sendReliable seq env).1 = false → (sendReliable seq env).2 = RETRY_COUNT) ∧
    ((sendReliable seq env).1 = true →
      attemptAcked seq (env (sendReliable seq env).2) = true ∧
      ∀ j, 1 ≤ j → j < (sendReliable seq env).2 → attemptAcked seq (env j) = false) := by
  cases h1 : attemptAcked seq (env 1) with
  | true =>
    have hr : sendReliable seq env = (true, 1) := by
      simp [sendReliable, sendReliableLoop, RETRY_COUNT, h1]
    rw [hr]
    refine ⟨by decide, ?_, by simp, fun _ => ⟨h1, fun j hj1 hj2 => ?_⟩⟩
    · simp only [true_iff]
      exact ⟨1, by decide, by decide, h1⟩
    · simp only at hj2
      omega
  | false =>
    cases h2 : attemptAcked seq (env 2) with
    | true =>
      have hr : sendReliable seq env = (true, 2) := by
        simp [sendReliable, sendReliableLoop, RETRY_COUNT, h1, h2]
      rw [hr]
      refine ⟨by decide, ?_, by simp, fun _ => ⟨h2, fun j hj1 hj2 => ?_⟩⟩
      · simp only [true_iff]
        exact ⟨2, by decide, by decide, h2⟩
      · simp only at hj2
        have hj : j = 1 := by omega
        rw [hj]; exact h1
    | false =>
      cases h3 : attemptAcked seq (env 3) with
      | true =>
        have hr : sendReliable seq env = (true, 3) := by
          simp [sendReliable, sendReliableLoop, RETRY_COUNT, h1, h2, h3]
        rw [hr]
        refine ⟨by decide, ?_, by simp, fun _ => ⟨h3, fun j hj1 hj2 => ?_⟩⟩
        · simp only [true_iff]
          exact ⟨3, by decide, by decide, h3⟩
        · simp only at hj2
          rcases (by omega : j = 1 ∨ j = 2) with hj | hj <;> rw [hj]
          · exact h1
          · exact h2
      | false =>
        have hr : sendReliable seq env = (false, 3) := by
          simp [sendReliable, sendReliableLoop, RETRY_COUNT, h1, h2, h3]
        rw [hr]
        refine ⟨by decide, ?_, fun _ => rfl, by simp⟩
        simp only [Bool.false_eq_true, false_iff]
        rintro ⟨i, hi1, hi3, hik⟩
        have hi3n : i ≤ 3 := hi3
        rcases (by omega : i = 1 ∨ i = 2 ∨ i = 3) with hj | hj | hj <;>
          rw [hj] at hik <;> simp_all

/-- Witness for `sendReliable_contract` at a concrete environment where only
the second attempt's window contains the matching acknowledgment. -/
theorem sendReliable_contract_witness :
    attemptAcked 5 ((fun i => if i = 2 then [⟨MSG_READY_V1, 5⟩] else []) 2) = true ∧
    ∀ j, 1 ≤ j → j < (sendReliable 5 (fun i => if i = 2 then [⟨MSG_READY_V1, 5⟩] else [])).2 →
      attemptAcked 5 ((fun i => if i = 2 then [⟨MSG_READY_V1, 5⟩] else []) j) = false := by
  have h := (sendReliable_contract 5 (fun i => if i = 2 then [⟨MSG_READY_V1, 5⟩] else [])).2.2.2
    (by decide)
  exact ⟨by decide, h.2⟩

/-! ### Discovery registry lemmas -/

theorem discoverStep_seen {reg : List Nat} {id : Nat} (h : reg.contains id = true) :
    discoverStep reg id = reg := by
  unfold discoverStep
  rw [if_pos h]

theorem discoverStep_new {reg : List Nat} {id : Nat} (h : ¬ reg.contains id = true)
    (hl : reg.length < MAX_DEVICES) : discoverStep reg id = reg ++ [id] := by
  unfold discoverStep
  rw [if_neg h, if_pos hl]

theorem discoverStep_full {reg : List Nat} {id : Nat} (h : ¬ reg.contains id = true)
    (hl : ¬ reg.length < MAX_DEVICES) : discoverStep reg id = reg := by
  unfold discoverStep
  rw [if_neg h, if_neg hl]

theorem discoverFold_nodup (ids : List Nat) :
    ∀ acc : List Nat, acc.Nodup → (ids.foldl discoverStep acc).Nodup := by
  induction ids with
  | nil => intro acc h; exact h
  | cons a rest ih =>
    intro acc h
    simp only [List.foldl_cons]
    apply ih
    by_cases hc : acc.contains a = true
    · rw [discoverStep_seen hc]; exact h
    · by_cases hl : acc.length < MAX_DEVICES
      · rw [discoverStep_new hc hl]
        have hmem : a ∉ acc := by simpa using hc
        simp [List.nodup_append, h, hmem]
      · rw [discoverStep_full hc hl]; exact h

theorem discoverFold_capacity (ids : List Nat) :
    ∀ acc : List Nat, acc.length ≤ MAX_DEVICES →
      (ids.foldl discoverStep acc).length ≤ MAX_DEVICES := by
  induction ids with
  | nil => intro acc h; exact h
  | cons a rest ih =>
    intro acc h
    simp only [List.foldl_cons]
    apply ih
    by_cases hc : acc.contains a = true
    · rw [discoverStep_seen hc]; exact h
    · by_cases hl : acc.length < MAX_DEVICES
      · rw [discoverStep_new hc hl]
        simp only [List.length_append, List.length_singleton]
        omega
      · rw [discoverStep_full hc hl]; exact h

theorem discoverFold_sublist (ids : List Nat) :
    ∀ acc : List Nat, ∃ s, ids.foldl discoverStep acc = acc ++ s ∧ s.Sublist ids := by
  induction ids with
  | nil => intro acc; exact ⟨[], by simp⟩
  | cons a rest ih =>
    intro acc
    simp only [List.foldl_cons]
    by_cases hc : acc.contains a = true
    · rw [discoverStep_seen hc]
      obtain ⟨s, hs, hsub⟩ := ih acc
      exact ⟨s, hs, hsub.cons a⟩
    · by_cases hl : acc.length < MAX_DEVICES
      · rw [discoverStep_new hc hl]
        obtain ⟨s, hs, hsub⟩ := ih (acc ++ [a])
        exact ⟨a :: s, by simpa using hs, hsub.cons₂ a⟩
      · rw [discoverStep_full hc hl]
        obtain ⟨s, hs, hsub⟩ := ih acc
        exact ⟨s, hs, hsub.cons a⟩

theorem discoverFold_complete (ids : List Nat) :
    ∀ acc : List Nat, acc.length + ids.length ≤ MAX_DEVICES →
      ∀ x, x ∈ ids.foldl discoverStep acc ↔ x ∈ acc ∨ x ∈ ids := by
  induction ids with
  | nil => intro acc h x; simp
  | cons a rest ih =>
    intro acc h x
    simp only [List.foldl_cons]
    by_cases hc : acc.contains a = true
    · rw [discoverStep_seen hc,
        ih acc (by simp only [List.length_cons] at h; omega)]
      have hmem : a ∈ acc := by simpa using hc
      constructor
      · rintro (hx | hx)
        · exact Or.inl hx
        · exact Or.inr (List.mem_cons_of_mem a hx)
      · rintro (hx | hx)
        · exact Or.inl hx
        · rcases List.mem_cons.mp hx with hx | hx
          · exact Or.inl (by rw [hx]; exact hmem)
          · exact Or.inr hx
    · by_cases hl : acc.length < MAX_DEVICES
      · rw [discoverStep_new hc hl,
          ih (acc ++ [a]) (by simp only [List.length_append, List.length_cons,
            List.length_nil] at h ⊢; omega)]
        simp only [List.mem_append, List.mem_singleton, List.mem_cons]
        tauto
      · exfalso
        simp only [List.length_cons] at h
        have : MAX_DEVICES ≤ acc.length := by omega
        omega

/-- **C9** (confirmed): `performDiscovery` resets the registry and rebuilds it
from the response window's arrivals: the result never contains duplicates, is
a subsequence of the arrival order (so first arrivals are kept in order),
never exceeds `MAX_DEVICES` entries, and — whenever the window delivers at
most `MAX_DEVICES` tokens — contains exactly the tokens that arrived. -/
theorem performDiscovery_registry (ids : List Nat) :
    (performDiscovery ids).Nodup ∧
    List.Sublist (performDiscovery ids) ids ∧
    (performDiscovery ids).length ≤ MAX_DEVICES ∧
    (ids.length ≤ MAX_DEVICES → ∀ x, x ∈ performDiscovery ids ↔ x ∈ ids) := by
  refine ⟨discoverFold_nodup ids [] List.nodup_nil, ?_, ?_, ?_⟩
  · obtain ⟨s, hs, hsub⟩ := discoverFold_sublist ids []
    unfold performDiscovery
    rw [hs]; simpa using hsub
  · exact discoverFold_capacity ids [] (by simp [MAX_DEVICES])
  · intro hlen x
    have := discoverFold_complete ids [] (by simpa using hlen) x
    simpa using this

/-- Witness for `performDiscovery_registry`: three retransmissions of token 7
register once, and a second responder 5 also appears, in arrival order. -/
theorem performDiscovery_registry_witness :
    performDiscovery [7, 7, 7, 5] = [7, 5] ∧
    ((5 ∈ performDiscovery [7, 7, 7, 5]) ↔ 5 ∈ [7, 7, 7, 5]) := by
  exact ⟨by decide, (performDiscovery_registry [7, 7, 7, 5]).2.2.2 (by decide) 5⟩

/-! ### Scheduler capacity lemmas -/

theorem addAction_length (acc : List Action) (t ty arg : Nat) (h : acc.length < MAX_ACTIONS) :
    (addAction acc t ty arg).length = acc.length + 1 := by
  unfold addAction
  rw [if_pos h]
  simp

theorem splitGtSuffix_eq (key : Action) : ∀ l : List Action,
    (splitGtSuffix key l).1 ++ (splitGtSuffix key l).2 = l := by
  intro l
  induction l with
  | nil => rfl
  | cons a rest ih =>
    rcases hs : splitGtSuffix key rest with ⟨pre, suf⟩
    rw [hs] at ih
    cases pre with
    | nil =>
      by_cases hg : sgt32 a.t key.t = true
      · simp only [splitGtSuffix, hs, hg, if_true]
        simpa using ih
      · simp only [splitGtSuffix, hs, hg, if_false]
        simpa using ih
    | cons b p =>
      simp only [splitGtSuffix, hs]
      simpa using ih

theorem insertSorted_length (key : Action) (l : List Action) :
    (insertSorted key l).length = l.length + 1 := by
  rcases hs : splitGtSuffix key l with ⟨pre, suf⟩
  have h := splitGtSuffix_eq key l
  rw [hs] at h
  unfold insertSorted
  rw [hs, ← h]
  simp only [List.length_append, List.length_cons]
  omega

theorem sortActionsByTime_length (l : List Action) :
    (sortActionsByTime l).length = l.length := by
  suffices h : ∀ acc : List Action,
      (l.foldl (fun acc x => insertSorted x acc) acc).length = acc.length + l.length by
    simpa using h []
  induction l with
  | nil => intro acc; simp
  | cons a rest ih =>
    intro acc
    simp only [List.foldl_cons]
    rw [ih, insertSorted_length]
    simp only [List.length_cons]
    omega

theorem buildCore_length (base : Nat) (t_ds : List Nat) :
    ∀ n, n ≤ 3 → (buildCore base t_ds n).length = 2 * n := by
  intro n
  induction n with
  | zero => intro _; rfl
  | succ m ih =>
    intro h
    have hm := ih (by omega)
    have h1 : (addAction (buildCore base t_ds m)
        (playTimeB base (t_ds.getD m 0)) ACT_PLAY (TRACK_FOR_STEP.getD m 0)).length
        = 2 * m + 1 := by
      rw [addAction_length _ _ _ _ (by rw [hm]; simp only [MAX_ACTIONS]; omega), hm]
    simp only [buildCore]
    rw [addAction_length _ _ _ _ (by rw [h1]; simp only [MAX_ACTIONS]; omega), h1]
    omega

theorem buildActionsB_length (base steps : Nat) (t_ds : List Nat) :
    (buildActionsB base steps t_ds).length
      = 2 * min steps 3 + (if 4 ≤ steps then 1 else 0) := by
  unfold buildActionsB
  have hc := buildCore_length base t_ds (min steps 3) (by omega)
  by_cases h4 : 4 ≤ steps
  · rw [if_pos h4, if_pos h4,
      addAction_length _ _ _ _ (by rw [hc]; simp only [MAX_ACTIONS]; omega), hc]
  · rw [if_neg h4, if_neg h4, hc]
    omega

/-- **C10** (confirmed): for every START directive, the schedule builder emits
exactly `2 * min(steps, 3) + (steps ≥ 4 ? 1 : 0) ≤ 7` actions — below
`MAX_ACTIONS = 12`, so `addAction`'s capacity guard never silently discards an
emitted action (the sorted list retains the full emission count) — and each
scheduler tick keeps `currentStep ≤ totalSteps ≤ MAX_ACTIONS`, leaves the
action list unchanged, fires at most one action (its result is an `Option`),
and advances the cursor by exactly one when it fires. -/
theorem schedule_capacity_and_tick :
    (∀ timeOffset pkt, (sortActionsByTime (buildStartActions timeOffset pkt)).length
        = 2 * min pkt.steps 3 + (if 4 ≤ pkt.steps then 1 else 0) ∧
      (sortActionsByTime (buildStartActions timeOffset pkt)).length ≤ 7 ∧
      7 < MAX_ACTIONS) ∧
    (∀ s now, s.currentStep ≤ s.actions.length → s.actions.length ≤ MAX_ACTIONS →
      (runScheduledSteps s now).1.actions = s.actions ∧
      (runScheduledSteps s now).1.currentStep ≤ (runScheduledSteps s now).1.actions.length ∧
      (runScheduledSteps s now).1.actions.length ≤ MAX_ACTIONS ∧
      ((runScheduledSteps s now).2.isSome = true →
        (runScheduledSteps s now).1.currentStep = s.currentStep + 1) ∧
      ((runScheduledSteps s now).2 = none → (runScheduledSteps s now).1 = s)) := by
  constructor
  · intro timeOffset pkt
    rw [sortActionsByTime_length, buildStartActions, buildActionsB_length]
    refine ⟨rfl, ?_, by decide⟩
    split_ifs <;> omega
  · intro s now h1 h2
    unfold runScheduledSteps
    split_ifs with hc hd
    · exact ⟨rfl, h1, h2, by simp, fun _ => rfl⟩
    · push_neg at hc
      refine ⟨rfl, ?_, h2, fun _ => rfl, by simp⟩
      show s.currentStep + 1 ≤ s.actions.length
      omega
    · exact ⟨rfl, h1, h2, by simp, fun _ => rfl⟩

/-- Witness for `schedule_capacity_and_tick`: the four-step directive `wpkt`
yields exactly 7 scheduled actions, and a tick with a due action advances the
cursor from 0 to 1. -/
theorem schedule_capacity_and_tick_witness :
    (sortActionsByTime (buildStartActions 0 wpkt)).length = 7 ∧
    (runScheduledSteps ⟨0, 0, 0, [⟨5, ACT_PLAY, 1⟩], 0, 20⟩ 10).1.currentStep = 1 := by
  constructor
  · rw [(schedule_capacity_and_tick.1 0 wpkt).1]
    decide
  · exact (schedule_capacity_and_tick.2 ⟨0, 0, 0, [⟨5, ACT_PLAY, 1⟩], 0, 20⟩ 10
      (by decide) (by decide)).2.2.2.1 (by decide)

/-! ### Wraparound-safe comparison lemmas -/

theorem sgt32_asymm {a b : Nat} (h : sgt32 a b = true) : sgt32 b a = false := by
  unfold sgt32 toSigned sub32 M32 HALF32 at *
  simp only [decide_eq_true_eq, decide_eq_false_iff_not] at *
  split_ifs at h ⊢ <;> omega

theorem play_le_led (base d : Nat) (h : ds_to_us d < HALF32 + leadUs) :
    toSigned (sub32 (playTimeB base d) (ledTimeB base d)) ≤ 0 := by
  have hd : ds_to_us d < M32 := by unfold ds_to_us M32; omega
  unfold playTimeB playTimeRawB ledTimeB
  generalize ds_to_us d = dus at h hd ⊢
  unfold add32 sub32 toSigned leadUs M32 HALF32 at *
  split_ifs at * <;> omega

theorem sgt32_play_led (base d : Nat) (h : ds_to_us d < HALF32 + leadUs) :
    sgt32 (playTimeB base d) (ledTimeB base d) = false := by
  have := play_le_led base d h
  unfold sgt32
  simp only [decide_eq_false_iff_not]
  omega

theorem sgt32_led_next_play (base d d2 : Nat) (h1 : d + 10 ≤ d2) (h2 : d2 ≤ 21474) :
    sgt32 (ledTimeB base d) (playTimeB base d2) = false := by
  have hd : ds_to_us d = d * 100000 := by unfold ds_to_us M32; omega
  have hd2 : ds_to_us d2 = d2 * 100000 := by unfold ds_to_us M32; omega
  unfold sgt32 playTimeB playTimeRawB ledTimeB
  rw [hd, hd2]
  have e1 : d * 100000 + 1000000 ≤ d2 * 100000 := by omega
  have e2 : d2 * 100000 ≤ 2147400000 := by omega
  generalize d * 100000 = du at e1 ⊢
  generalize d2 * 100000 = du2 at e1 e2 ⊢
  simp only [decide_eq_false_iff_not]
  unfold add32 sub32 toSigned leadUs M32 HALF32 at *
  split_ifs at * <;> omega

theorem sgt32_led_off (base d2 d3 : Nat) (h1 : d2 ≤ d3) (h2 : d3 ≤ 21474) :
    sgt32 (ledTimeB base d2) (add32 base (ds_to_us d3)) = false := by
  have hd2 : ds_to_us d2 = d2 * 100000 := by unfold ds_to_us M32; omega
  have hd3 : ds_to_us d3 = d3 * 100000 := by unfold ds_to_us M32; omega
  unfold sgt32 ledTimeB
  rw [hd2, hd3]
  have e1 : d2 * 100000 ≤ d3 * 100000 := by omega
  have e2 : d3 * 100000 ≤ 2147400000 := by omega
  generalize d2 * 100000 = du2 at e1 ⊢
  generalize d3 * 100000 = du3 at e1 e2 ⊢
  simp only [decide_eq_false_iff_not]
  unfold add32 sub32 toSigned M32 HALF32 at *
  split_ifs at * <;> omega

/-! ### Insertion sort lemmas -/

theorem splitGtSuffix_suffix (key : Action) : ∀ l : List Action,
    ∀ x ∈ (splitGtSuffix key l).2, sgt32 x.t key.t = true := by
  intro l
  induction l with
  | nil => intro x hx; simp [splitGtSuffix] at hx
  | cons a rest ih =>
    rcases hs : splitGtSuffix key rest with ⟨pre, suf⟩
    rw [hs] at ih
    intro x hx
    cases pre with
    | nil =>
      cases hg : sgt32 a.t key.t
      · simp [splitGtSuffix, hs, hg] at hx
        exact ih x hx
      · simp [splitGtSuffix, hs, hg] at hx
        rcases hx with h | h
        · rw [h]; exact hg
        · exact ih x h
    | cons b p =>
      simp only [splitGtSuffix, hs] at hx
      exact ih x hx

theorem splitGtSuffix_pre_last (key : Action) : ∀ l : List Action,
    ∀ x ∈ (splitGtSuffix key l).1.getLast?, sgt32 x.t key.t = false := by
  intro l
  induction l with
  | nil => intro x hx; simp [splitGtSuffix] at hx
  | cons a rest ih =>
    rcases hs : splitGtSuffix key rest with ⟨pre, suf⟩
    rw [hs] at ih
    intro x hx
    cases pre with
    | nil =>
      cases hg : sgt32 a.t key.t
      · simp [splitGtSuffix, hs, hg] at hx
        rw [← hx]; exact hg
      · simp [splitGtSuffix, hs, hg] at hx
    | cons b p =>
      simp only [splitGtSuffix, hs] at hx
      rw [List.getLast?_cons_cons] at hx
      exact ih x hx

theorem chain_insertSorted {l : List Action} (key : Action)
    (h : List.Chain' (fun a b => sgt32 a.t b.t = false) l) :
    List.Chain' (fun a b => sgt32 a.t b.t = false) (insertSorted key l) := by
  rcases hs : splitGtSuffix key l with ⟨pre, suf⟩
  have heq := splitGtSuffix_eq key l
  have hsuf := splitGtSuffix_suffix key l
  have hpre := splitGtSuffix_pre_last key l
  rw [hs] at heq hsuf hpre
  unfold insertSorted
  rw [hs]
  rw [← heq, List.chain'_append] at h
  obtain ⟨h1, h2, h3⟩ := h
  rw [List.chain'_append]
  refine ⟨h1, ?_, ?_⟩
  · rw [List.chain'_cons']
    refine ⟨fun y hy => ?_, h2⟩
    exact sgt32_asymm (hsuf y (List.mem_of_mem_head? hy))
  · intro x hx y hy
    have hyk : y = key := by simp at hy; exact hy.symm
    rw [hyk]
    exact hpre x hx

theorem chain_sortActionsByTime (l : List Action) :
    List.Chain' (fun a b => sgt32 a.t b.t = false) (sortActionsByTime l) := by
  suffices h : ∀ acc, List.Chain' (fun a b => sgt32 a.t b.t = false) acc →
      List.Chain' (fun a b => sgt32 a.t b.t = false)
        (l.foldl (fun acc x => insertSorted x acc) acc) by
    exact h [] List.chain'_nil
  induction l with
  | nil => intro acc h; exact h
  | cons a rest ih =>
    intro acc h
    simp only [List.foldl_cons]
    exact ih _ (chain_insertSorted a h)

theorem splitGtSuffix_of_last (key : Action) : ∀ l : List Action,
    (∀ x ∈ l.getLast?, sgt32 x.t key.t = false) → splitGtSuffix key l = (l, []) := by
  intro l
  induction l with
  | nil => intro _; rfl
  | cons a rest ih =>
    intro h
    cases rest with
    | nil =>
      have ha : sgt32 a.t key.t = false := h a (by simp)
      simp [splitGtSuffix, ha]
    | cons b p =>
      have hr : splitGtSuffix key (b :: p) = (b :: p, []) := by
        apply ih
        intro x hx
        apply h
        rwa [List.getLast?_cons_cons]
      have hcons : splitGtSuffix key (a :: b :: p)
          = match splitGtSuffix key (b :: p) with
            | ([], s) => if sgt32 a.t key.t = true then ([], a :: s) else ([a], s)
            | (c :: pre, s) => (a :: c :: pre, s) := rfl
      rw [hcons, hr]

theorem insertSorted_of_last (key : Action) (l : List Action)
    (h : ∀ x ∈ l.getLast?, sgt32 x.t key.t = false) :
    insertSorted key l = l ++ [key] := by
  unfold insertSorted
  rw [splitGtSuffix_of_last key l h]

theorem sortActionsByTime_of_chain : ∀ l : List Action,
    List.Chain' (fun a b => sgt32 a.t b.t = false) l → sortActionsByTime l = l := by
  intro l
  induction l using List.reverseRecOn with
  | nil => intro _; rfl
  | append_singleton l x ih =>
    intro h
    rw [List.chain'_append] at h
    obtain ⟨h1, _, h3⟩ := h
    unfold sortActionsByTime at *
    rw [List.foldl_append, ih h1]
    simp only [List.foldl_cons, List.foldl_nil]
    apply insertSorted_of_last
    intro y hy
    exact h3 y hy x (by simp)

theorem ds_us_small {d : Nat} (h : d ≤ 21474) : ds_to_us d < HALF32 + leadUs := by
  unfold ds_to_us
  rw [Nat.mod_eq_of_lt (by unfold M32; omega)]
  unfold HALF32 leadUs
  omega

theorem buildCore_three (base : Nat) (t_ds : List Nat) :
    buildCore base t_ds 3 =
      [⟨playTimeB base (t_ds.getD 0 0), ACT_PLAY, 1⟩,
       ⟨ledTimeB base (t_ds.getD 0 0), ACT_LED_RED, 0⟩,
       ⟨playTimeB base (t_ds.getD 1 0), ACT_PLAY, 2⟩,
       ⟨ledTimeB base (t_ds.getD 1 0), ACT_LED_ORANGE, 0⟩,
       ⟨playTimeB base (t_ds.getD 2 0), ACT_PLAY, 3⟩,
       ⟨ledTimeB base (t_ds.getD 2 0), ACT_LED_GREEN, 0⟩] := by
  show buildCore base t_ds (2 + 1) = _
  simp only [buildCore, addAction]
  norm_num [MAX_ACTIONS, TRACK_FOR_STEP, ledActType]

theorem buildActionsB_three (base : Nat) (t_ds : List Nat) :
    buildActionsB base 3 t_ds = buildCore base t_ds 3 := by
  unfold buildActionsB
  norm_num

theorem buildActionsB_four (base : Nat) (t_ds : List Nat) :
    buildActionsB base 4 t_ds =
      buildCore base t_ds 3 ++ [⟨add32 base (ds_to_us (t_ds.getD 3 0)), ACT_ALL_OFF, 0⟩] := by
  unfold buildActionsB addAction
  rw [if_pos (by norm_num), if_pos]
  · norm_num
  · rw [show (4 : Nat) ⊓ 3 = 3 from rfl, buildCore_length base t_ds 3 (by omega)]
    simp [MAX_ACTIONS]

/-- **C3** (amended, proved): the action list built by `parseStartBinary` and
sorted by `sortActionsByTime` is always non-decreasing (adjacent pairs) under
the wraparound-safe signed-difference order; and for each of the first three
steps whose converted offset stays below `2^31 + leadUs` microseconds, the
(clamped) PlayAudio time compares at or before its paired SetLed time.  (For
larger offsets the claim fails: see the counterexample `schedule_pairing_cex`.) -/
theorem schedule_sorted_amended (timeOffset : Nat) (pkt : StartPacketV1) :
    List.Chain' (fun a b => sgt32 a.t b.t = false)
      (sortActionsByTime (buildStartActions timeOffset pkt)) ∧
    (∀ i, i < min pkt.steps 3 → ds_to_us (pkt.t_ds.getD i 0) < HALF32 + leadUs →
      toSigned (sub32 (playTime timeOffset pkt i) (ledTime timeOffset pkt i)) ≤ 0) := by
  refine ⟨chain_sortActionsByTime _, fun i _ hds => ?_⟩
  exact play_le_led (scheduleBase timeOffset pkt) (pkt.t_ds.getD i 0) hds

/-- Witness for `schedule_sorted_amended` at the concrete directive `wpkt`. -/
theorem schedule_sorted_amended_witness :
    toSigned (sub32 (playTime 0 wpkt 0) (ledTime 0 wpkt 0)) ≤ 0 :=
  (schedule_sorted_amended 0 wpkt).2 0 (by decide) (by decide)

/-! ### LED-order lemmas -/

theorem atMostOneLit_phaseState (p : Nat) : atMostOneLit (phaseState p) = true := by
  cases p with
  | zero => rfl
  | succ p1 => cases p1 with
    | zero => rfl
    | succ p2 => cases p2 with
      | zero => rfl
      | succ p3 => rfl

theorem execLed_of_notLed (s : LedState) (ty : Nat) (h : isLedOn ty = false) :
    execLed s ty = s ∨ execLed s ty = allOffLeds := by
  have h1 : ty ≠ ACT_LED_RED := by
    intro he; rw [he] at h; exact absurd h (by decide)
  have h2 : ty ≠ ACT_LED_ORANGE := by
    intro he; rw [he] at h; exact absurd h (by decide)
  have h3 : ty ≠ ACT_LED_GREEN := by
    intro he; rw [he] at h; exact absurd h (by decide)
  unfold execLed
  rw [if_neg h1, if_neg h2, if_neg h3]
  by_cases h4 : ty = ACT_ALL_OFF
  · rw [if_pos h4]
    exact Or.inr rfl
  · rw [if_neg h4]
    exact Or.inl rfl

/-- Phase-machine invariant: a schedule whose LED-lighting subsequence, in
execution order, is the red-orange-green tail starting at phase `p` keeps at
most one signal color lit after every prefix, regardless of where the
`ACT_PLAY` and `ACT_ALL_OFF` actions fall. -/
theorem ledPhase_invariant : ∀ (l : List Action) (p : Nat) (s : LedState),
    (ledOnActions l).map (fun a => a.type) = phaseLeds p →
    (s = allOffLeds ∨ s = phaseState p) →
    allPrefixesAtMostOne s l = true := by
  intro l
  induction l with
  | nil =>
    intro p s _ hs
    show atMostOneLit s = true
    rcases hs with hs | hs <;> rw [hs]
    · decide
    · exact atMostOneLit_phaseState p
  | cons a rest ih =>
    intro p s hmap hs
    show (atMostOneLit s && allPrefixesAtMostOne (execLed s a.type) rest) = true
    rw [Bool.and_eq_true]
    refine ⟨?_, ?_⟩
    · rcases hs with hs | hs <;> rw [hs]
      · decide
      · exact atMostOneLit_phaseState p
    · cases hled : isLedOn a.type with
      | false =>
        have hsame : ledOnActions (a :: rest) = ledOnActions rest := by
          unfold ledOnActions
          rw [List.filter_cons_of_neg (by simp [hled])]
        rw [hsame] at hmap
        rcases execLed_of_notLed s a.type hled with he | he <;> rw [he]
        · exact ih p s hmap hs
        · exact ih p allOffLeds hmap (Or.inl rfl)
      | true =>
        have hcons : ledOnActions (a :: rest) = a :: ledOnActions rest := by
          unfold ledOnActions
          rw [List.filter_cons_of_pos (by simp [hled])]
        rw [hcons, List.map_cons] at hmap
        cases p with
        | zero =>
          simp only [phaseLeds, List.cons.injEq] at hmap
          obtain ⟨haty, hrest⟩ := hmap
          have hexec : execLed s a.type = phaseState 1 := by
            rw [haty]
            rcases hs with hs | hs <;> rw [hs] <;> decide
          rw [hexec]
          exact ih 1 _ hrest (Or.inr rfl)
        | succ p1 => cases p1 with
          | zero =>
            simp only [phaseLeds, List.cons.injEq] at hmap
            obtain ⟨haty, hrest⟩ := hmap
            have hexec : execLed s a.type = phaseState 2 := by
              rw [haty]
              rcases hs with hs | hs <;> rw [hs] <;> decide
            rw [hexec]
            exact ih 2 _ hrest (Or.inr rfl)
          | succ p2 => cases p2 with
            | zero =>
              simp only [phaseLeds, List.cons.injEq] at hmap
              obtain ⟨haty, hrest⟩ := hmap
              have hexec : execLed s a.type = phaseState 3 := by
                rw [haty]
                rcases hs with hs | hs <;> rw [hs] <;> decide
              rw [hexec]
              exact ih 3 _ hrest (Or.inr rfl)
            | succ p3 =>
              rw [show phaseLeds (p3 + 1 + 1 + 1) = [] from rfl] at hmap
              exact absurd hmap (List.cons_ne_nil _ _)

theorem ledOnActions_insert_notLed (key : Action) (acc : List Action)
    (hk : isLedOn key.type = false) :
    ledOnActions (insertSorted key acc) = ledOnActions acc := by
  rcases hs : splitGtSuffix key acc with ⟨pre, suf⟩
  have heq := splitGtSuffix_eq key acc
  rw [hs] at heq
  unfold insertSorted
  rw [hs, ← heq]
  unfold ledOnActions
  simp only [List.filter_append]
  rw [List.filter_cons_of_neg (by simp [hk])]

theorem ledOnActions_insert_led (key : Action) (acc : List Action)
    (hk : isLedOn key.type = true)
    (h : ∀ x ∈ ledOnActions acc, sgt32 x.t key.t = false) :
    ledOnActions (insertSorted key acc) = ledOnActions acc ++ [key] := by
  rcases hs : splitGtSuffix key acc with ⟨pre, suf⟩
  have heq := splitGtSuffix_eq key acc
  have hgt := splitGtSuffix_suffix key acc
  rw [hs] at heq hgt
  have hsufnil : ledOnActions suf = [] := by
    unfold ledOnActions
    rw [List.filter_eq_nil_iff]
    intro x hx hled
    have hxacc : x ∈ acc := by
      rw [← heq]
      exact List.mem_append_right pre hx
    have hxled : x ∈ ledOnActions acc := by
      unfold ledOnActions
      exact List.mem_filter.mpr ⟨hxacc, hled⟩
    have := h x hxled
    rw [hgt x hx] at this
    exact absurd this (by decide)
  unfold insertSorted
  rw [hs, ← heq]
  unfold ledOnActions at hsufnil ⊢
  simp only [List.filter_append]
  rw [List.filter_cons_of_pos (by simp [hk]), hsufnil]
  simp

theorem sgt32_led_led (base d d2 : Nat) (h1 : d ≤ d2) (h2 : d2 ≤ 21474) :
    sgt32 (ledTimeB base d) (ledTimeB base d2) = false :=
  sgt32_led_off base d d2 h1 h2

theorem sortActionsByTime_six (a b c d e f : Action) :
    sortActionsByTime [a, b, c, d, e, f] =
      insertSorted f (insertSorted e (insertSorted d
        (insertSorted c (insertSorted b (insertSorted a []))))) := rfl

theorem sortActionsByTime_seven (a b c d e f g : Action) :
    sortActionsByTime [a, b, c, d, e, f, g] =
      insertSorted g (insertSorted f (insertSorted e (insertSorted d
        (insertSorted c (insertSorted b (insertSorted a [])))))) := rfl

/-- **C7** (amended, proved): for every directive with 3 or 4 steps whose
first three step offsets are non-decreasing (ties allowed) and at most
2147.4 s (below the signed-comparison horizon), executing the built and
time-sorted action list from the all-LEDs-off state leaves at most one signal
color lit after every prefix; the fourth (AllOff) offset is unconstrained,
since `ACT_ALL_OFF` and `ACT_PLAY` actions never light an LED.  (Without the
ordering hypothesis the claim fails: see `led_invariant_cex`.) -/
theorem led_invariant_amended (timeOffset : Nat) (pkt : StartPacketV1)
    (hsteps : pkt.steps = 3 ∨ pkt.steps = 4)
    (hb1 : pkt.t_ds.getD 1 0 ≤ 21474)
    (hb2 : pkt.t_ds.getD 2 0 ≤ 21474)
    (h01 : pkt.t_ds.getD 0 0 ≤ pkt.t_ds.getD 1 0)
    (h12 : pkt.t_ds.getD 1 0 ≤ pkt.t_ds.getD 2 0) :
    allPrefixesAtMostOne allOffLeds
      (sortActionsByTime (buildStartActions timeOffset pkt)) = true := by
  have c0 : ledOnActions (insertSorted
      ⟨playTimeB (scheduleBase timeOffset pkt) (pkt.t_ds.getD 0 0), ACT_PLAY, 1⟩
      []) = [] := by
    rw [ledOnActions_insert_notLed] <;> rfl
  have c1 : ledOnActions (insertSorted
      ⟨ledTimeB (scheduleBase timeOffset pkt) (pkt.t_ds.getD 0 0), ACT_LED_RED, 0⟩
      (insertSorted
        ⟨playTimeB (scheduleBase timeOffset pkt) (pkt.t_ds.getD 0 0), ACT_PLAY, 1⟩
        [])) =
      [⟨ledTimeB (scheduleBase timeOffset pkt) (pkt.t_ds.getD 0 0), ACT_LED_RED, 0⟩] := by
    rw [ledOnActions_insert_led]
    · rw [c0]; rfl
    · rfl
    · rw [c0]
      intro x hx
      simp at hx
  have c2 : ledOnActions (insertSorted
      ⟨playTimeB (scheduleBase timeOffset pkt) (pkt.t_ds.getD 1 0), ACT_PLAY, 2⟩
      (insertSorted
        ⟨ledTimeB (scheduleBase timeOffset pkt) (pkt.t_ds.getD 0 0), ACT_LED_RED, 0⟩
        (insertSorted
          ⟨playTimeB (scheduleBase timeOffset pkt) (pkt.t_ds.getD 0 0), ACT_PLAY, 1⟩
          []))) =
      [⟨ledTimeB (scheduleBase timeOffset pkt) (pkt.t_ds.getD 0 0), ACT_LED_RED, 0⟩] := by
    rw [ledOnActions_insert_notLed]
    · exact c1
    · rfl
  have c3 : ledOnActions (insertSorted
      ⟨ledTimeB (scheduleBase timeOffset pkt) (pkt.t_ds.getD 1 0), ACT_LED_ORANGE, 0⟩
      (insertSorted
        ⟨playTimeB (scheduleBase timeOffset pkt) (pkt.t_ds.getD 1 0), ACT_PLAY, 2⟩
        (insertSorted
          ⟨ledTimeB (scheduleBase timeOffset pkt) (pkt.t_ds.getD 0 0), ACT_LED_RED, 0⟩
          (insertSorted
            ⟨playTimeB (scheduleBase timeOffset pkt) (pkt.t_ds.getD 0 0), ACT_PLAY, 1⟩
            [])))) =
      [⟨ledTimeB (scheduleBase timeOffset pkt) (pkt.t_ds.getD 0 0), ACT_LED_RED, 0⟩,
       ⟨ledTimeB (scheduleBase timeOffset pkt) (pkt.t_ds.getD 1 0), ACT_LED_ORANGE, 0⟩] := by
    rw [ledOnActions_insert_led]
    · rw [c2]; rfl
    · rfl
    · rw [c2]
      intro x hx
      simp only [List.mem_singleton] at hx
      rw [hx]
      exact sgt32_led_led _ _ _ h01 hb1
  have c4 : ledOnActions (insertSorted
      ⟨playTimeB (scheduleBase timeOffset pkt) (pkt.t_ds.getD 2 0), ACT_PLAY, 3⟩
      (insertSorted
        ⟨ledTimeB (scheduleBase timeOffset pkt) (pkt.t_ds.getD 1 0), ACT_LED_ORANGE, 0⟩
        (insertSorted
          ⟨playTimeB (scheduleBase timeOffset pkt) (pkt.t_ds.getD 1 0), ACT_PLAY, 2⟩
          (insertSorted
            ⟨ledTimeB (scheduleBase timeOffset pkt) (pkt.t_ds.getD 0 0), ACT_LED_RED, 0⟩
            (insertSorted
              ⟨playTimeB (scheduleBase timeOffset pkt) (pkt.t_ds.getD 0 0), ACT_PLAY, 1⟩
              []))))) =
      [⟨ledTimeB (scheduleBase timeOffset pkt) (pkt.t_ds.getD 0 0), ACT_LED_RED, 0⟩,
       ⟨ledTimeB (scheduleBase timeOffset pkt) (pkt.t_ds.getD 1 0), ACT_LED_ORANGE, 0⟩] := by
    rw [ledOnActions_insert_notLed]
    · exact c3
    · rfl
  have c5 : ledOnActions (insertSorted
      ⟨ledTimeB (scheduleBase timeOffset pkt) (pkt.t_ds.getD 2 0), ACT_LED_GREEN, 0⟩
      (insertSorted
        ⟨playTimeB (scheduleBase timeOffset pkt) (pkt.t_ds.getD 2 0), ACT_PLAY, 3⟩
        (insertSorted
          ⟨ledTimeB (scheduleBase timeOffset pkt) (pkt.t_ds.getD 1 0), ACT_LED_ORANGE, 0⟩
          (insertSorted
            ⟨playTimeB (scheduleBase timeOffset pkt) (pkt.t_ds.getD 1 0), ACT_PLAY, 2⟩
            (insertSorted
              ⟨ledTimeB (scheduleBase timeOffset pkt) (pkt.t_ds.getD 0 0), ACT_LED_RED, 0⟩
              (insertSorted
                ⟨playTimeB (scheduleBase timeOffset pkt) (pkt.t_ds.getD 0 0), ACT_PLAY, 1⟩
                [])))))) =
      [⟨ledTimeB (scheduleBase timeOffset pkt) (pkt.t_ds.getD 0 0), ACT_LED_RED, 0⟩,
       ⟨ledTimeB (scheduleBase timeOffset pkt) (pkt.t_ds.getD 1 0), ACT_LED_ORANGE, 0⟩,
       ⟨ledTimeB (scheduleBase timeOffset pkt) (pkt.t_ds.getD 2 0), ACT_LED_GREEN, 0⟩] := by
    rw [ledOnActions_insert_led]
    · rw [c4]; rfl
    · rfl
    · rw [c4]
      intro x hx
      simp only [List.mem_cons] at hx
      rcases hx with hx | hx | hx
      · rw [hx]
        exact sgt32_led_led _ _ _ (le_trans h01 h12) hb2
      · rw [hx]
        exact sgt32_led_led _ _ _ h12 hb2
      · exact absurd hx (List.not_mem_nil x)
  rcases hsteps with hsteps | hsteps
  · have hbuild : buildStartActions timeOffset pkt
        = buildCore (scheduleBase timeOffset pkt) pkt.t_ds 3 := by
      unfold buildStartActions
      rw [hsteps, buildActionsB_three]
    rw [hbuild, buildCore_three, sortActionsByTime_six]
    refine ledPhase_invariant _ 0 _ ?_ (Or.inl rfl)
    rw [c5]
    rfl
  · have hbuild : buildStartActions timeOffset pkt
        = buildCore (scheduleBase timeOffset pkt) pkt.t_ds 3
          ++ [⟨add32 (scheduleBase timeOffset pkt) (ds_to_us (pkt.t_ds.getD 3 0)),
              ACT_ALL_OFF, 0⟩] := by
      unfold buildStartActions
      rw [hsteps, buildActionsB_four]
    rw [hbuild, buildCore_three]
    simp only [List.cons_append, List.nil_append]
    rw [sortActionsByTime_seven]
    refine ledPhase_invariant _ 0 _ ?_ (Or.inl rfl)
    rw [ledOnActions_insert_notLed]
    · rw [c5]
      rfl
    · rfl

/-- Witness for `led_invariant_amended` at a directive with tied offsets
(10, 10, 20 deciseconds), allowed by the amendment. -/
theorem led_invariant_amended_witness :
    allPrefixesAtMostOne allOffLeds (sortActionsByTime (buildStartActions 0
      { seq := 2, targetId := 1, currentClock := 0, masterStart := 1000000,
        volume := 20, steps := 3, t_ds := [10, 10, 20, 0] })) = true :=
  led_invariant_amended 0
    { seq := 2, targetId := 1, currentClock := 0, masterStart := 1000000,
      volume := 20, steps := 3, t_ds := [10, 10, 20, 0] }
    (Or.inl rfl) (by decide) (by decide) (by decide) (by decide)

end StarterDevices
